import Mathlib

/-!
Shallow embedding of the WegeRadar core algorithm (src/algorithm.py) and
proofs of the specification claims about it.

Conventions of the embedding:
* Python floats are modelled as exact rationals (`ℚ`); timestamps as `ℤ`
  seconds since the epoch (instants; timezone conversions in the source
  never change the instant, and the minute comparison in the merge pass
  is done on UTC datetimes, i.e. floor division of seconds by 60).
* The external network-data collaborator (`_load_osm_cached`, which may
  hit the network via osmnx or slice a preloaded GeoDataFrame) is a
  parameter `lookup : Bbox → Mode → Except Unit (List Geom)`; a `.error`
  result models the lookup raising an exception.  A geometry row of the
  returned GeoDataFrame is modelled by its observable behaviour: whether
  its bounding box intersects the buffered query point (`bboxHit`, the
  spatial-index candidate test), its shapely distance in degrees to a
  point (`dist`), and its parsed `maxspeed` attribute.
* The geocoding collaborator `reverse_geocode` is a parameter
  `g : ℚ → ℚ → Addr` (it is memoised in the source, hence a pure function
  of the rounded coordinates within one run).
* The haversine distance is a transcendental function; the embedding
  takes the point-to-point metre distance as a parameter `dM : Dist`, so
  every theorem quantifies over it, and concrete counterexamples supply a
  function that agrees with haversine's comparisons on the sample points.
-/

namespace WegeRadar

/-- The six supported transport modes, in the iteration order of the
Python dicts `_SPEED_BANDS` / `_TAG_FILTERS` (insertion order). -/
inductive Mode where
  | zuFuss
  | fahrrad
  | auto
  | bus
  | strassenbahn
  | zug
deriving DecidableEq, Repr

/-- Iteration order of `_TAG_FILTERS.items()` in `classify_transport`. -/
def modeList : List Mode :=
  [.zuFuss, .fahrrad, .auto, .bus, .strassenbahn, .zug]

/-- `_SPEED_BANDS` : speed bands (km/h) per mode. -/
def speedBands : Mode → ℚ × ℚ
  | .zuFuss => (0, 7)
  | .fahrrad => (7, 30)
  | .auto => (24, 300)
  | .bus => (15, 90)
  | .strassenbahn => (15, 90)
  | .zug => (40, 250)

/-- `_speed_score(v_kmh, mode)` from src/algorithm.py lines 128-134. -/
def speedScore (v : ℚ) (m : Mode) : ℚ :=
  if v ≤ (speedBands m).1 then 0
  else if (speedBands m).2 ≤ v then 1
  else (v - (speedBands m).1) / ((speedBands m).2 - (speedBands m).1)

/-- One geometry row of the network-data GeoDataFrame, modelled by its
observable behaviour: `bboxHit pt` is the spatial-index candidate test
`idx.intersection(pt.buffer(buf_deg).bounds)` for this row, `dist pt` the
shapely degree distance `row.geometry.distance(pt)`, and `maxspeed` the
already-parsed `_parse_maxspeed(row.get("maxspeed"))` attribute. -/
structure Geom where
  bboxHit : ℚ × ℚ → Bool
  dist : ℚ × ℚ → ℚ
  maxspeed : Option ℚ

/-- Bounding box `(north, south, east, west)`. -/
abbrev Bbox := ℚ × ℚ × ℚ × ℚ

/-- The network-data collaborator: `_load_osm_cached(bbox, tag_filter)`.
The tag filter is determined by the mode (`_TAG_FILTERS[mode]`), so the
second argument is the mode.  `.error` models a raised exception. -/
abbrev Lookup := Bbox → Mode → Except Unit (List Geom)

def maxList : List ℚ → ℚ
  | [] => 0
  | x :: xs => xs.foldl max x

def minList : List ℚ → ℚ
  | [] => 0
  | x :: xs => xs.foldl min x

/-- Bounding box of the segment points plus the 0.001° buffer
(`classify_transport` lines 245-249). -/
def bboxOf (segPts : List (ℚ × ℚ)) : Bbox :=
  (maxList (segPts.map Prod.fst) + 0.001,
   minList (segPts.map Prod.fst) - 0.001,
   maxList (segPts.map Prod.snd) + 0.001,
   minList (segPts.map Prod.snd) - 0.001)

/-- Candidate geometries for a point: the rows whose bounding boxes
intersect the buffered point (`idx.intersection(pt.buffer(buf_deg).bounds)`). -/
def candFor (g : List Geom) (pt : ℚ × ℚ) : List Geom :=
  g.filter (fun x => x.bboxHit pt)

/-- Minimum shapely distance of a point to a non-empty candidate list
(`gdf.iloc[cand].distance(pt).min()`); 0 on the empty list (unused there). -/
def nearestDist (pt : ℚ × ℚ) : List Geom → ℚ
  | [] => 0
  | c :: cs => (cs.map (fun x => x.dist pt)).foldl min (c.dist pt)

/-- Whether one segment point counts as matched in the coverage loop:
some candidate exists and the nearest candidate is within the 10 m snap
radius (degree distance times 111320). -/
def ptMatched (g : List Geom) (pt : ℚ × ℚ) : Bool :=
  let cand := candFor g pt
  !cand.isEmpty && decide (nearestDist pt cand * 111320 ≤ 10)

/-- Python slice `l[::k]`: every k-th element starting at index 0, i.e.
the elements whose index is divisible by k. -/
def everyNth (l : List α) (k : ℕ) : List α :=
  (l.enum.filter (fun p => p.1 % k == 0)).map Prod.snd

/-- Coverage score (`classify_transport` lines 256-272): 0 if the
GeoDataFrame is empty, otherwise the number of matched points among the
thinned points `seg_pts[::max(1, len(seg_pts)//100)]`, divided by the
full number of segment points. -/
def covScore (g : List Geom) (segPts : List (ℚ × ℚ)) : ℚ :=
  if g.isEmpty then 0
  else
    let step := max 1 (segPts.length / 100)
    let sampled := everyNth segPts step
    (((sampled.filter (ptMatched g)).length : ℚ)) / (segPts.length : ℚ)

/-- First truthy maxspeed among the candidate rows for one point
(the inner `for ... break` of `_limit_score`; Python truthiness skips
both `None` and `0.0`). -/
def firstLimit (g : List Geom) (pt : ℚ × ℚ) : Option ℚ :=
  (candFor g pt).findSome? (fun x =>
    match x.maxspeed with
    | some v => if v = 0 then none else some v
    | none => none)

/-- Average of the collected maxspeed limits of a segment
(`avg = sum(limits) / len(limits)` in `_limit_score`). -/
def avgLimit (segPts : List (ℚ × ℚ)) (g : List Geom) : ℚ :=
  (segPts.filterMap (firstLimit g)).sum / ((segPts.filterMap (firstLimit g)).length : ℚ)

/-- `_limit_score(mode, speed_kmh, seg_pts, gdf)` from lines 152-179. -/
def limitScore (m : Mode) (speed : ℚ) (segPts : List (ℚ × ℚ)) (g : List Geom) : ℚ :=
  if ¬(m = .auto ∨ m = .bus) ∨ speed = 0 ∨ g.isEmpty then 1
  else if segPts.filterMap (firstLimit g) = [] then 1
  else if speed ≤ avgLimit segPts g then 1
  else if speed ≤ 1.5 * avgLimit segPts g then 0.5
  else 0

/-- One iteration of the per-mode loop body of `classify_transport`
(lines 252-291): compute the speed score, try the network lookup for the
coverage score (an exception leaves the `gdf` variable untouched and
zeroes the coverage), compute the limit score for Auto/Bus — reading the
`gdf` variable outside the `try`, which raises (`.error ()`) when it was
never assigned — form the weighted total, and zero it for Zu Fuß beyond
4 km.  Returns the mode's total and the new state of the `gdf`
variable. -/
def modeStep (lookup : Lookup) (bb : Bbox) (segPts : List (ℚ × ℚ))
    (speed dist : ℚ) (m : Mode) (gdfVar : Option (List Geom)) :
    Except Unit (ℚ × Option (List Geom)) :=
  let sSpeed := speedScore speed m
  let covGdf : ℚ × Option (List Geom) :=
    match lookup bb m with
    | .ok g => (covScore g segPts, some g)
    | .error _ => (0, gdfVar)
  let sCov := covGdf.1
  let gdfNew := covGdf.2
  if m = .auto ∨ m = .bus then
    match gdfNew with
    | none => .error ()
    | some g =>
      let total := 0.4 * sSpeed + 0.4 * sCov + 0.2 * limitScore m speed segPts g
      .ok (if m = .zuFuss ∧ 4 < dist then 0 else total, some g)
  else
    let total := 0.4 * sSpeed + 0.6 * sCov
    .ok (if m = .zuFuss ∧ 4 < dist then 0 else total, gdfNew)

/-- The per-mode scoring loop of `classify_transport` (lines 252-291).
The `Option (List Geom)` argument models the Python local variable `gdf`,
which is assigned only inside the `try` block: `none` means the variable
is still unbound; an iteration that reads it unbound raises, and the
exception escapes the loop. -/
def scoreLoop (lookup : Lookup) (bb : Bbox) (segPts : List (ℚ × ℚ))
    (speed dist : ℚ) :
    List Mode → Option (List Geom) → List (Mode × ℚ) → Except Unit (List (Mode × ℚ))
  | [], _, acc => .ok acc.reverse
  | m :: ms, gdfVar, acc =>
    match modeStep lookup bb segPts speed dist m gdfVar with
    | .error e => .error e
    | .ok (total, gdfNew) =>
      scoreLoop lookup bb segPts speed dist ms gdfNew ((m, total) :: acc)

/-- Raw (pre-normalization) mode scores of one segment. -/
def modeScores (lookup : Lookup) (segPts : List (ℚ × ℚ)) (speed dist : ℚ) :
    Except Unit (List (Mode × ℚ)) :=
  scoreLoop lookup (bboxOf segPts) segPts speed dist modeList none []

/-- Normalization step (lines 293-296): `tot = sum(scores.values()) or 1`
and divide every score by `tot`. -/
def normalize (rs : List (Mode × ℚ)) : List (Mode × ℚ) :=
  let tot := (rs.map Prod.snd).sum
  let tot := if tot = 0 then 1 else tot
  rs.map (fun p => (p.1, p.2 / tot))

/-- `max(scores, key=scores.get)` (line 297): first key attaining the
maximal value in iteration order (Python `max` keeps the current value
unless a later one is strictly greater). -/
def bestMode : List (Mode × ℚ) → Option Mode
  | [] => none
  | p :: ps => some (ps.foldl (fun a b => if a.2 < b.2 then b else a) p).1

/-- Return value of `classify_transport`: the score dict.  `scores` is
the association list of the six mode keys in insertion order; `best` is
the `"best"` entry (`none` models Python `None`). -/
structure ClassifyResult where
  scores : List (Mode × ℚ)
  best : Option Mode
deriving DecidableEq, Repr

/-- `classify_transport(seg_pts, speed_kmh, dist_km)` from lines 237-298.
An empty point list returns `{"best": None}`; otherwise the six modes are
scored, normalized and the best key picked.  `.error` models an uncaught
exception escaping to the caller. -/
def classify (lookup : Lookup) (segPts : List (ℚ × ℚ)) (speed dist : ℚ) :
    Except Unit ClassifyResult :=
  match segPts with
  | [] => .ok ⟨[], none⟩
  | _ :: _ =>
    match modeScores lookup segPts speed dist with
    | .error e => .error e
    | .ok rs =>
      let ns := normalize rs
      .ok ⟨ns, bestMode ns⟩

/-! Stop detection and merging (`analyze_gpx`, src/algorithm.py lines 427-542). -/

/-- Point-to-point distance in metres; stands for `haversine` from
lines 304-308 (a transcendental function of the coordinates, so the
embedding abstracts it as a parameter). -/
abbrev Dist := (ℚ × ℚ) → (ℚ × ℚ) → ℚ

/-- Address record produced by `reverse_geocode` (the five fields
compared by `_same_address`, line 375-376). -/
structure Addr where
  name : String
  road : String
  houseNumber : String
  postcode : String
  city : String
deriving DecidableEq, Repr

/-- All-empty address, the degraded result of a failed geocode. -/
def emptyAddr : Addr := ⟨"", "", "", "", ""⟩

/-- The (memoised, hence pure within one run) geocoding collaborator. -/
abbrev GeoFn := ℚ → ℚ → Addr

/-- One GPS trace point `(time, lat, lon)` (UTC seconds). -/
structure Pt where
  t : ℤ
  lat : ℚ
  lon : ℚ
deriving DecidableEq, Repr

/-- One stay-point / stop entry flowing through the merge passes:
coordinates, start/end instants (UTC seconds) and the address (empty
until the geocoding step fills it in). -/
structure E where
  lat : ℚ
  lon : ℚ
  s : ℤ
  e : ℤ
  addr : Addr
deriving DecidableEq, Repr

/-- Stable insertion of a point into a time-sorted list (goes after all
entries with `t ≤ x.t`), modelling Python's stable `pts.sort`. -/
def insT (x : Pt) : List Pt → List Pt
  | [] => [x]
  | y :: ys => if y.t ≤ x.t then y :: insT x ys else x :: y :: ys

/-- `pts.sort(key=lambda x: x[0])` (line 452): stable sort by timestamp. -/
def sortPts (l : List Pt) : List Pt :=
  l.foldl (fun acc x => insT x acc) []

/-- Synthetic endpoint stay-point (lines 470-474): the point's own
coordinates with `start = end =` its timestamp. -/
def synthE (p : Pt) : E :=
  ⟨p.lat, p.lon, p.t, p.t, emptyAddr⟩

/-- Stop-cluster detection (lines 455-468): anchor a window at the
current point, extend it over the following points while they are within
`distm` metres of the anchor, and if the window spans at least `minSec`
seconds emit its centroid and continue after the window, else retry from
the next point. -/
def clustersGo (dM : Dist) (distm : ℚ) (minSec : ℤ) : ℕ → List Pt → List E
  | 0, _ => []
  | _, [] => []
  | fuel + 1, p :: rest =>
    let run := rest.takeWhile (fun q => decide (dM (p.lat, p.lon) (q.lat, q.lon) ≤ distm))
    let win := p :: run
    let lastT := (run.getLastD p).t
    if minSec ≤ lastT - p.t then
      ⟨(win.map Pt.lat).sum / (win.length : ℚ),
       (win.map Pt.lon).sum / (win.length : ℚ),
       p.t, lastT, emptyAddr⟩ :: clustersGo dM distm minSec fuel (rest.drop run.length)
    else
      clustersGo dM distm minSec fuel rest

/-- Entry point of the cluster scan.  The fuel argument of `clustersGo`
only bounds the recursion structurally; every iteration of the source's
`while i < n` loop advances `i` by at least one, so `l.length` steps are
always enough and the fuel never runs out. -/
def clustersE (dM : Dist) (distm : ℚ) (minSec : ℤ) (l : List Pt) : List E :=
  clustersGo dM distm minSec l.length l

/-- The `coords` list of line 470-474: synthetic first point, the
clusters, synthetic last point. -/
def mkCoords (dM : Dist) (p : Pt) (rest : List Pt) : List E :=
  synthE p :: (clustersE dM 50 180 (p :: rest) ++ [synthE ((p :: rest).getLastD p)])

/-- Merge condition of pass 2 (line 479): previous end and current start
fall in the same wall-clock minute (`strftime "%Y-%m-%d %H:%M"` equality
on UTC instants = equality of the floor divisions of the epoch seconds
by 60). -/
def cond2 (p x : E) : Bool :=
  decide (p.e.fdiv 60 = x.s.fdiv 60)

/-- `_same_address` (lines 375-376): field-for-field equality of the
five address fields. -/
def sameAddr (a b : Addr) : Bool :=
  decide (a = b)

/-- Merge condition of pass 4 (lines 505-508): gap of at most 10 minutes
and (identical address or coordinates within 150 m). -/
def cond4 (dM : Dist) (p x : E) : Bool :=
  decide (x.s - p.e ≤ 600) &&
    (sameAddr p.addr x.addr || decide (dM (p.lat, p.lon) (x.lat, x.lon) ≤ 150))

/-- Body of both merge passes: `x` is the last entry of the output built
so far (Python's `merged[-1]` / `final[-1]`); if the condition holds
between it and the next entry, extend `x`'s end to the next entry's end
and drop that entry, else emit `x` and continue from the next entry. -/
def mergeGo (c : E → E → Bool) (x : E) : List E → List E
  | [] => [x]
  | y :: ys =>
    if c x y then mergeGo c {x with e := y.e} ys
    else x :: mergeGo c y ys

/-- The shared shape of both merge passes: walk left to right; if the
condition holds between the previous (possibly already extended) entry
and the next one, extend the previous entry's end to the next one's end
and drop the next entry, else emit the previous entry and continue. -/
def greedyMerge (c : E → E → Bool) : List E → List E
  | [] => []
  | x :: xs => mergeGo c x xs

/-- Pass 2, the minute-overlap merge (lines 477-482). -/
def mergePass2 (l : List E) : List E :=
  greedyMerge cond2 l

/-- Pass 4, the address/gap merge (lines 499-511). -/
def mergePass4 (dM : Dist) (l : List E) : List E :=
  greedyMerge (cond4 dM) l

/-- Pass 3, the geocoding enrichment (lines 485-496): attach the address
of each entry's coordinates; times and coordinates are unchanged. -/
def enrich (g : GeoFn) (l : List E) : List E :=
  l.map (fun x => {x with addr := g x.lat x.lon})

/-- The full merge pipeline applied to a stay-point list: minute-overlap
pass, geocoding, address/gap pass. -/
def mergedStops (dM : Dist) (g : GeoFn) (l : List E) : List E :=
  mergePass4 dM (enrich g (mergePass2 l))

/-- The final stop list of `analyze_gpx` (before the per-segment metric
annotation of lines 514-540, which only adds fields to the entries):
sort the points, bracket the detected clusters with the synthetic
endpoints, then run the merge pipeline. -/
def stopsOf (dM : Dist) (g : GeoFn) (pts : List Pt) : List E :=
  match sortPts pts with
  | [] => []
  | p :: rest => mergedStops dM g (mkCoords dM p rest)

/-! Segment metrics (lines 514-537). -/

/-- Python `round` (banker's rounding, half to even) on exact rationals. -/
def roundHalfEven (q : ℚ) : ℤ :=
  let f := ⌊q⌋
  let r := q - (f : ℚ)
  if r < 1/2 then f
  else if 1/2 < r then f + 1
  else if f % 2 = 0 then f else f + 1

/-- `round(x, 2)`. -/
def round2 (q : ℚ) : ℚ :=
  (roundHalfEven (q * 100) : ℚ) / 100

/-- Distance-accumulation loop over consecutive raw trace points
(lines 518-530): skip pairs ending before the previous stop's end, start
accumulating at the first point at/after it, stop once a pair reaching
the next stop's start has been included. -/
def segDistLoop (dM : Dist) (endPrev startNext : ℤ) :
    List Pt → Bool → ℚ → ℚ
  | [], _, acc => acc
  | [_], _, acc => acc
  | a :: b :: rest, started, acc =>
    if b.t < endPrev then segDistLoop dM endPrev startNext (b :: rest) started acc
    else
      let st1 := started || decide (endPrev ≤ a.t)
      let acc1 := if st1 then acc + dM (a.lat, a.lon) (b.lat, b.lon) else acc
      if st1 && decide (startNext ≤ b.t) then acc1
      else segDistLoop dM endPrev startNext (b :: rest) st1 acc1

/-- The rounded real segment distance in km (line 532). -/
def segDistKm (dM : Dist) (pts : List Pt) (endPrev startNext : ℤ) : ℚ :=
  round2 (segDistLoop dM endPrev startNext pts false 0 / 1000)

/-- Segment metrics (lines 532-537): rounded real distance in km, and
speed `round(dist_km / time_h, 2)` guarded by `time_h > 0`, with the
fallback value `0.0` otherwise. -/
def segMetrics (dM : Dist) (pts : List Pt) (endPrev startNext : ℤ) : ℚ × ℚ :=
  (segDistKm dM pts endPrev startNext,
   if 0 < ((startNext - endPrev : ℤ) : ℚ) / 3600 then
     round2 (segDistKm dM pts endPrev startNext / (((startNext - endPrev : ℤ) : ℚ) / 3600))
   else 0)

/-! Spec-side definitions, used only to compare the implementation with
the specification's wording (refinement-style claims). -/

/-- Modelled from the spec: the network-coverage score as the spec words
it, "fraction of a segment's points whose nearest matched geometry lies
within the snap radius" — i.e. the matched fraction over all points, not
over the thinned sample.  Uses the same per-point matched predicate as
the implementation. -/
def specCovFraction (g : List Geom) (segPts : List (ℚ × ℚ)) : ℚ :=
  ((segPts.filter (ptMatched g)).length : ℚ) / (segPts.length : ℚ)

/-- Modelled from the spec: the on-foot distance-decay factor the spec
describes — "1.0 up to 1 km, linearly decaying to 0 at 4 km, 0 beyond". -/
def specFootDecay (d : ℚ) : ℚ :=
  if d ≤ 1 then 1
  else if 4 ≤ d then 0
  else (4 - d) / 3

/-- Modelled from the spec: the segment speed as the spec words it —
"distance / elapsed hours when elapsed time is positive, otherwise the
speed is marked absent". -/
def specSpeedOpt (distKm : ℚ) (elapsedS : ℤ) : Option ℚ :=
  if 0 < elapsedS then some (distKm / ((elapsedS : ℚ) / 3600)) else none

/-- The weighted signal sum of the on-foot mode (speed signal 40% plus
coverage signal 60%, coverage 0 when the lookup raises), i.e. the
on-foot total of the scoring loop before the distance cutoff. -/
def footWeighted (lookup : Lookup) (segPts : List (ℚ × ℚ)) (speed : ℚ) : ℚ :=
  0.4 * speedScore speed .zuFuss +
    0.6 * (match lookup (bboxOf segPts) .zuFuss with
           | .ok g => covScore g segPts
           | .error _ => 0)

/-! Concrete collaborators and inputs used by the witnesses and
counterexamples below. -/

/-- Network lookup that always succeeds with an empty GeoDataFrame (the
documented no-data-for-the-area behaviour). -/
def lookupNil : Lookup := fun _ _ => .ok []

/-- Network lookup that raises on every query (collaborator outage). -/
def lookupFail : Lookup := fun _ _ => .error ()

/-- Geometry whose bounding box always intersects and whose distance to
every point is 0 (a way passing through every sample point). -/
def gAll : Geom := ⟨fun _ => true, fun _ => 0, none⟩

/-- Trivial metre distance (all points coincide). -/
def dM0 : Dist := fun _ _ => 0

/-- Planar small-angle approximation of the haversine metre distance;
it agrees with haversine on every comparison performed on the concrete
sample points below (e.g. 0.0001° of latitude ↦ ≈ 11.1 m ≤ 50). -/
def dEx : Dist := fun a b => 111195 * (|a.1 - b.1| + |a.2 - b.2|)

/-- Geocoder that always returns the empty address (the degraded result
the source produces when the geocoding collaborator fails). -/
def g0 : GeoFn := fun _ _ => emptyAddr

/-- A single trace point at the origin. -/
def pt0 : Pt := ⟨0, 0, 0⟩

/-- A two-point trace spending 200 s within a 50 m radius: the cluster
detector folds both points into one centroid cluster, and the merge
passes then absorb both synthetic endpoints into it. -/
def ptsEx : List Pt := [⟨0, 0, 0⟩, ⟨200, 1/10000, 0⟩]

/-! Helper lemmas. -/

theorem speedBands_lt (m : Mode) : (speedBands m).1 < (speedBands m).2 := by
  cases m <;> norm_num [speedBands]

theorem speedScore_bounds (v : ℚ) (m : Mode) :
    0 ≤ speedScore v m ∧ speedScore v m ≤ 1 := by
  have hlh := speedBands_lt m
  unfold speedScore
  split_ifs with h1 h2
  · norm_num
  · norm_num
  · constructor
    · apply div_nonneg <;> linarith
    · rw [div_le_one (by linarith)]
      linarith

/-! Claims C7 and C10: the speed-band score. -/

/-- Claim C7, counterexample: the claim says the speed-band score equals
1.0 everywhere inside the band `[lo, hi]`, but at `v = 20` km/h — inside
the bicycle band `[7, 30]` — the implementation returns `13/23`, not 1:
there is no soft-margin scoring, only a single linear ramp from lo to
hi. -/
theorem c7_counterexample :
    speedBands .fahrrad = (7, 30) ∧ (7 : ℚ) ≤ 20 ∧ (20 : ℚ) ≤ 30 ∧
    speedScore 20 .fahrrad = 13 / 23 ∧ (13 / 23 : ℚ) ≠ 1 := by
  refine ⟨rfl, by norm_num, by norm_num, ?_, by norm_num⟩
  norm_num [speedScore, speedBands]

/-- Claim C7 (amended): for every mode with band `[lo, hi]`, the
implemented speed-band score lies in `[0, 1]`, is 0 at or below `lo`,
1 at or above `hi`, and ramps linearly as `(v - lo)/(hi - lo)` strictly
between `lo` and `hi` — the plain-ramp variant, with no ±1 km/h soft
margin and no value 1.0 across the interior of the band. -/
theorem c7_amended (m : Mode) (v : ℚ) :
    0 ≤ speedScore v m ∧ speedScore v m ≤ 1
    ∧ (v ≤ (speedBands m).1 → speedScore v m = 0)
    ∧ ((speedBands m).2 ≤ v → speedScore v m = 1)
    ∧ ((speedBands m).1 < v → v < (speedBands m).2 →
        speedScore v m = (v - (speedBands m).1) / ((speedBands m).2 - (speedBands m).1)) := by
  have hlh := speedBands_lt m
  refine ⟨(speedScore_bounds v m).1, (speedScore_bounds v m).2, ?_, ?_, ?_⟩
  · intro h
    simp [speedScore, h]
  · intro h
    have hv : ¬ v ≤ (speedBands m).1 := by linarith
    simp [speedScore, hv, h]
  · intro h1 h2
    have hv1 : ¬ v ≤ (speedBands m).1 := by linarith
    have hv2 : ¬ (speedBands m).2 ≤ v := by linarith
    simp [speedScore, hv1, hv2]

/-- Claim C7 witness: at concrete speeds outside the bicycle band the
amended characterisation evaluates as stated. -/
theorem c7_witness : speedScore 3 .fahrrad = 0 ∧ speedScore 35 .fahrrad = 1 :=
  ⟨(c7_amended .fahrrad 3).2.2.1 (by norm_num [speedBands]),
   (c7_amended .fahrrad 35).2.2.2.1 (by norm_num [speedBands])⟩

/-- Claim C10: the implemented speed-band score is monotone
non-decreasing in the speed, bounded in `[0, 1]`, 0 at or below the
band's lower bound and 1 at or above its upper bound. -/
theorem c10_speed_monotone (m : Mode) (v1 v2 : ℚ) :
    (v1 ≤ v2 → speedScore v1 m ≤ speedScore v2 m)
    ∧ 0 ≤ speedScore v1 m ∧ speedScore v1 m ≤ 1
    ∧ (v1 ≤ (speedBands m).1 → speedScore v1 m = 0)
    ∧ ((speedBands m).2 ≤ v1 → speedScore v1 m = 1) := by
  have hlh := speedBands_lt m
  have hb1 := speedScore_bounds v1 m
  have hb2 := speedScore_bounds v2 m
  refine ⟨?_, hb1.1, hb1.2, ?_, ?_⟩
  · intro h12
    by_cases a1 : v1 ≤ (speedBands m).1
    · have h0 : speedScore v1 m = 0 := by simp [speedScore, a1]
      rw [h0]
      exact hb2.1
    · by_cases a2 : (speedBands m).2 ≤ v2
      · have hlo2 : ¬ v2 ≤ (speedBands m).1 := by linarith
        have h1 : speedScore v2 m = 1 := by simp [speedScore, hlo2, a2]
        rw [h1]
        exact hb1.2
      · have b2 : ¬ (speedBands m).2 ≤ v1 := by
          intro hc
          exact a2 (le_trans hc h12)
        have hlo2 : ¬ v2 ≤ (speedBands m).1 := by
          intro hc
          exact a1 (le_trans h12 hc)
        have e1 : speedScore v1 m
            = (v1 - (speedBands m).1) / ((speedBands m).2 - (speedBands m).1) := by
          simp [speedScore, a1, b2]
        have e2 : speedScore v2 m
            = (v2 - (speedBands m).1) / ((speedBands m).2 - (speedBands m).1) := by
          simp [speedScore, hlo2, a2]
        rw [e1, e2]
        gcongr
        linarith
  · intro h
    simp [speedScore, h]
  · intro h
    have hv : ¬ v1 ≤ (speedBands m).1 := by linarith
    simp [speedScore, hv, h]

/-- Claim C10 witness: the monotonicity and the endpoint values at
concrete speeds for the car band `[24, 300]`. -/
theorem c10_witness :
    speedScore 30 .auto ≤ speedScore 40 .auto
    ∧ speedScore 10 .auto = 0 ∧ speedScore 301 .auto = 1 :=
  ⟨(c10_speed_monotone .auto 30 40).1 (by norm_num),
   (c10_speed_monotone .auto 10 301).2.2.2.1 (by norm_num [speedBands]),
   (c10_speed_monotone .auto 301 30).2.2.2.2 (by norm_num [speedBands])⟩

/-! Claim C1: collaborator failure handling in `classify_transport`. -/

/-- Claim C1 (code bug): the claim (and the spec) say a failing network
lookup only zeroes that mode's coverage score and `classify_transport`
still returns a score mapping.  In the code, however, the local variable
`gdf` is assigned only inside the `try` block (line 258), while the
`_limit_score` call for Auto/Bus (line 278) reads it outside the `try`:
if the lookup raises for Zu Fuß, Fahrrad and Auto (e.g. a total network
outage with no offline GeoDataFrame loaded), the Auto iteration raises
`UnboundLocalError`, which propagates to the caller.  This theorem
evaluates the embedded code at that failing input: the call errors
instead of returning a score mapping. -/
theorem c1_code_raises :
    classify lookupFail [((0 : ℚ), 0)] 10 1 = .error () := by
  with_unfolding_all rfl

/-! Claim C2: the network-coverage score. -/

theorem everyNth_one (l : List α) : everyNth l 1 = l := by
  unfold everyNth
  rw [List.filter_eq_self.mpr, List.enum_map_snd]
  intro a _
  simp [Nat.mod_one]

theorem everyNth_subset (l : List α) (k : ℕ) (x : α) (hx : x ∈ everyNth l k) :
    x ∈ l := by
  unfold everyNth at hx
  have hsub := ((List.filter_sublist l.enum
    (p := fun p => p.1 % k == 0)).map Prod.snd).subset hx
  rwa [List.enum_map_snd] at hsub

theorem ptMatched_nil (pt : ℚ × ℚ) : ptMatched [] pt = false := rfl

/-- Claim C2, counterexample: on a segment of 200 points that all lie
exactly on a returned geometry, the claimed score (fraction of points
whose nearest matched geometry is within 10 m) is 1, but the code thins
the points to every 2nd one (`seg_pts[::200//100]`) while still dividing
the match count by the full 200, returning 1/2. -/
theorem c2_counterexample :
    covScore [gAll] (List.replicate 200 ((0 : ℚ), 0)) = 1 / 2
    ∧ specCovFraction [gAll] (List.replicate 200 ((0 : ℚ), 0)) = 1
    ∧ (1 / 2 : ℚ) ≠ 1 := by
  refine ⟨?_, ?_, by norm_num⟩
  · set_option maxRecDepth 40000 in with_unfolding_all rfl
  · set_option maxRecDepth 40000 in with_unfolding_all rfl

/-- Claim C2 (amended): the coverage score equals the number of matched
points among the thinned sample `seg_pts[::max(1, n//100)]` divided by
the full point count n; this equals the claimed fraction of all matched
points exactly when the segment has fewer than 200 points (the thinning
step is 1).  The score is 0 when the lookup returns no geometries and
also when no point is within the snap radius. -/
theorem c2_amended (g : List Geom) (segPts : List (ℚ × ℚ)) :
    (segPts.length < 200 → covScore g segPts = specCovFraction g segPts)
    ∧ (g = [] → covScore g segPts = 0)
    ∧ ((∀ pt ∈ segPts, ptMatched g pt = false) → covScore g segPts = 0) := by
  refine ⟨?_, ?_, ?_⟩
  · intro hlen
    by_cases hg : g.isEmpty
    · have hge : g = [] := List.isEmpty_iff.mp hg
      subst hge
      have hfil : segPts.filter (ptMatched []) = [] :=
        List.filter_eq_nil_iff.mpr (fun a _ => by simp [ptMatched_nil])
      simp [covScore, specCovFraction, hfil]
    · have hdiv : segPts.length / 100 ≤ 1 := by omega
      have hstep : max 1 (segPts.length / 100) = 1 := Nat.max_eq_left hdiv
      simp only [covScore, hg, Bool.false_eq_true, if_false, hstep, everyNth_one,
        specCovFraction]
  · intro hge
    subst hge
    simp [covScore]
  · intro hall
    by_cases hg : g.isEmpty
    · simp [covScore, hg]
    · have hfil : (everyNth segPts (max 1 (segPts.length / 100))).filter (ptMatched g) = [] :=
        List.filter_eq_nil_iff.mpr (fun a ha => by
          simp [hall a (everyNth_subset segPts _ a ha)])
      simp [covScore, hg, hfil]

/-- Claim C2 witness: the amended statement evaluated on a short
(length < 200) segment where every point is matched: the score is the
plain fraction, here 1. -/
theorem c2_witness :
    covScore [gAll] [((0 : ℚ), 0), ((0 : ℚ), 1)]
      = specCovFraction [gAll] [((0 : ℚ), 0), ((0 : ℚ), 1)]
    ∧ specCovFraction [gAll] [((0 : ℚ), 0), ((0 : ℚ), 1)] = 1 :=
  ⟨(c2_amended [gAll] [((0 : ℚ), 0), ((0 : ℚ), 1)]).1 (by norm_num),
   by with_unfolding_all rfl⟩

/-! Claim C5: the zero-elapsed-time segment. -/

/-- Claim C5, counterexample: at zero elapsed time (`end_prev =
start_next = 100`) the code stores the number `0.0` in the speed field
(line 534, `else 0.0`), whereas the claim says the speed is marked
absent rather than set to a number — as the spec-side model
`specSpeedOpt`, which returns `none` here, words it. -/
theorem c5_counterexample :
    segMetrics dM0 [] 100 100 = (0, 0) ∧ specSpeedOpt 0 0 = none := by
  constructor
  · with_unfolding_all rfl
  · with_unfolding_all rfl

/-- Claim C5 (amended): when the elapsed time between two stops is zero
(or negative), the speed is set to the fallback number `0.0` — not
marked absent — without performing the division (the division is guarded
by `time_h > 0`), and the distance is still computed by the accumulation
loop exactly as for any other segment. -/
theorem c5_amended (dM : Dist) (pts : List Pt) (endPrev startNext : ℤ)
    (h : startNext ≤ endPrev) :
    (segMetrics dM pts endPrev startNext).2 = 0
    ∧ (segMetrics dM pts endPrev startNext).1
        = round2 (segDistLoop dM endPrev startNext pts false 0 / 1000) := by
  have hz : ((startNext - endPrev : ℤ) : ℚ) ≤ 0 := by
    have : (startNext - endPrev : ℤ) ≤ 0 := by omega
    exact_mod_cast this
  have ht : ¬ (0 : ℚ) < ((startNext - endPrev : ℤ) : ℚ) / 3600 := by
    have := div_nonpos_of_nonpos_of_nonneg hz (by norm_num : (0 : ℚ) ≤ 3600)
    linarith
  refine ⟨?_, rfl⟩
  simp only [segMetrics]
  rw [if_neg ht]

/-- Claim C5 witness: the amended statement at a concrete zero-elapsed
pair of stop boundaries. -/
theorem c5_witness :
    (segMetrics dM0 [] 50 50).2 = 0
    ∧ (segMetrics dM0 [] 50 50).1 = round2 (segDistLoop dM0 50 50 [] false 0 / 1000) :=
  c5_amended dM0 [] 50 50 (by norm_num)

/-! Claim C6: the on-foot distance cutoff. -/

theorem scoreLoop_acc (lookup : Lookup) (bb : Bbox) (segPts : List (ℚ × ℚ))
    (speed dist : ℚ) (ms : List Mode) :
    ∀ (gdfVar : Option (List Geom)) (acc rs : List (Mode × ℚ)),
      scoreLoop lookup bb segPts speed dist ms gdfVar acc = .ok rs →
      ∃ suf, rs = acc.reverse ++ suf := by
  induction ms with
  | nil =>
    intro gdfVar acc rs h
    simp only [scoreLoop, Except.ok.injEq] at h
    exact ⟨[], by simp [← h]⟩
  | cons m ms ih =>
    intro gdfVar acc rs h
    simp only [scoreLoop] at h
    rcases hstep : modeStep lookup bb segPts speed dist m gdfVar with e | p
    · rw [hstep] at h
      cases h
    · rw [hstep] at h
      obtain ⟨suf, hsuf⟩ := ih p.2 ((m, p.1) :: acc) rs h
      refine ⟨(m, p.1) :: suf, ?_⟩
      simp only [hsuf, List.reverse_cons, List.append_assoc, List.cons_append,
        List.nil_append]

/-- Claim C6, counterexample: on a 2 km segment at 5 km/h with an empty
network result, the code's raw on-foot score is the undampened weighted
sum `2/7`, whereas the claim's distance-decay factor (as the spec words
it, `specFootDecay 2 = 2/3`) would give `2/7 · 2/3 ≠ 2/7`: there is no
linear decay between 1 km and 4 km in the code, only a hard cutoff at
4 km. -/
theorem c6_counterexample :
    (modeScores lookupNil [((0 : ℚ), 0)] 5 2).toOption.bind List.head?
      = some (.zuFuss, 2 / 7)
    ∧ specFootDecay 2 = 2 / 3
    ∧ footWeighted lookupNil [((0 : ℚ), 0)] 5 * specFootDecay 2 ≠ 2 / 7 := by
  refine ⟨by with_unfolding_all rfl, by norm_num [specFootDecay], ?_⟩
  have h1 : footWeighted lookupNil [((0 : ℚ), 0)] 5 = 2 / 7 := by
    with_unfolding_all rfl
  have h2 : specFootDecay 2 = 2 / 3 := by norm_num [specFootDecay]
  rw [h1, h2]
  norm_num

/-- Claim C6 (amended): the on-foot raw score is the weighted signal sum
multiplied by a hard cutoff factor — 1 for distances up to 4 km and 0
beyond 4 km (there is no gradual decay between 1 km and 4 km); in
particular a segment of measured distance 5 km scores exactly 0 for
on-foot regardless of measured speed. -/
theorem scoreLoop_cons (lookup : Lookup) (bb : Bbox) (segPts : List (ℚ × ℚ))
    (speed dist : ℚ) (m : Mode) (ms : List Mode) (gdfVar : Option (List Geom))
    (acc : List (Mode × ℚ)) :
    scoreLoop lookup bb segPts speed dist (m :: ms) gdfVar acc
      = match modeStep lookup bb segPts speed dist m gdfVar with
        | .error e => .error e
        | .ok (total, gdfNew) =>
          scoreLoop lookup bb segPts speed dist ms gdfNew ((m, total) :: acc) := rfl

theorem modeStep_zuFuss (lookup : Lookup) (bb : Bbox) (segPts : List (ℚ × ℚ))
    (speed dist : ℚ) (gdfVar : Option (List Geom)) :
    modeStep lookup bb segPts speed dist .zuFuss gdfVar
      = .ok (if 4 < dist then 0
             else 0.4 * speedScore speed .zuFuss +
                  0.6 * (match lookup bb .zuFuss with
                         | .ok g => covScore g segPts
                         | .error _ => 0),
             match lookup bb .zuFuss with
             | .ok g => some g
             | .error _ => gdfVar) := by
  rcases hl : lookup bb .zuFuss with e | g <;>
    simp [modeStep, hl]

theorem c6_amended (lookup : Lookup) (segPts : List (ℚ × ℚ)) (speed dist : ℚ)
    (rs : List (Mode × ℚ)) (h : modeScores lookup segPts speed dist = .ok rs) :
    rs.head? = some (.zuFuss, if 4 < dist then 0 else footWeighted lookup segPts speed) := by
  have hms : modeScores lookup segPts speed dist
      = scoreLoop lookup (bboxOf segPts) segPts speed dist
          [.fahrrad, .auto, .bus, .strassenbahn, .zug]
          (match lookup (bboxOf segPts) .zuFuss with
           | .ok g => some g
           | .error _ => none)
          [(.zuFuss, if 4 < dist then 0 else footWeighted lookup segPts speed)] := by
    unfold modeScores
    rw [show modeList
          = Mode.zuFuss :: [Mode.fahrrad, .auto, .bus, .strassenbahn, .zug] from rfl]
    rw [scoreLoop_cons, modeStep_zuFuss]
    rfl
  rw [hms] at h
  obtain ⟨suf, hsuf⟩ := scoreLoop_acc lookup (bboxOf segPts) segPts speed dist
    _ _ _ _ h
  simp [hsuf]

/-- Claim C6 witness: the amended statement evaluated at 5 km distance
and 50 km/h: the raw on-foot score is exactly 0 despite the high speed. -/
theorem c6_witness :
    ([(Mode.zuFuss, (0 : ℚ)), (.fahrrad, 2/5), (.auto, 82/345), (.bus, 29/75),
      (.strassenbahn, 14/75), (.zug, 2/105)] : List (Mode × ℚ)).head?
      = some (.zuFuss, if (4 : ℚ) < 5 then 0 else footWeighted lookupNil [((0 : ℚ), 0)] 50) :=
  c6_amended lookupNil [((0 : ℚ), 0)] 50 5
    [(Mode.zuFuss, 0), (.fahrrad, 2/5), (.auto, 82/345), (.bus, 29/75),
     (.strassenbahn, 14/75), (.zug, 2/105)]
    (by with_unfolding_all rfl)

/-! Claims C4 and C9: normalization and shape of the returned mapping. -/

theorem covScore_nonneg (g : List Geom) (segPts : List (ℚ × ℚ)) :
    0 ≤ covScore g segPts := by
  unfold covScore
  split_ifs
  · exact le_refl 0
  · exact div_nonneg (Nat.cast_nonneg _) (Nat.cast_nonneg _)

theorem limitScore_nonneg (m : Mode) (speed : ℚ) (segPts : List (ℚ × ℚ))
    (g : List Geom) : 0 ≤ limitScore m speed segPts g := by
  unfold limitScore
  split_ifs <;> norm_num

theorem modeStep_nonneg (lookup : Lookup) (bb : Bbox) (segPts : List (ℚ × ℚ))
    (speed dist : ℚ) (m : Mode) (gdfVar : Option (List Geom))
    (total : ℚ) (gdfNew : Option (List Geom))
    (h : modeStep lookup bb segPts speed dist m gdfVar = .ok (total, gdfNew)) :
    0 ≤ total := by
  have hs := (speedScore_bounds speed m).1
  rcases hl : lookup bb m with e | g
  all_goals simp only [modeStep, hl] at h
  · by_cases hab : m = .auto ∨ m = .bus
    · rw [if_pos hab] at h
      rcases hgv : gdfVar with _ | g0 <;> rw [hgv] at h
      · exact Except.noConfusion h
      · simp only [Except.ok.injEq, Prod.mk.injEq] at h
        obtain ⟨ht, -⟩ := h
        subst ht
        have hl0 := limitScore_nonneg m speed segPts g0
        split_ifs
        · exact le_refl 0
        · positivity
    · rw [if_neg hab] at h
      simp only [Except.ok.injEq, Prod.mk.injEq] at h
      obtain ⟨ht, -⟩ := h
      subst ht
      split_ifs
      · exact le_refl 0
      · positivity
  · have hc := covScore_nonneg g segPts
    by_cases hab : m = .auto ∨ m = .bus
    · rw [if_pos hab] at h
      simp only [Except.ok.injEq, Prod.mk.injEq] at h
      obtain ⟨ht, -⟩ := h
      subst ht
      have hl0 := limitScore_nonneg m speed segPts g
      split_ifs
      · exact le_refl 0
      · positivity
    · rw [if_neg hab] at h
      simp only [Except.ok.injEq, Prod.mk.injEq] at h
      obtain ⟨ht, -⟩ := h
      subst ht
      split_ifs
      · exact le_refl 0
      · positivity

theorem scoreLoop_nonneg (lookup : Lookup) (bb : Bbox) (segPts : List (ℚ × ℚ))
    (speed dist : ℚ) (ms : List Mode) :
    ∀ (gdfVar : Option (List Geom)) (acc rs : List (Mode × ℚ)),
      (∀ p ∈ acc, 0 ≤ p.2) →
      scoreLoop lookup bb segPts speed dist ms gdfVar acc = .ok rs →
      ∀ p ∈ rs, 0 ≤ p.2 := by
  induction ms with
  | nil =>
    intro gdfVar acc rs hacc h p hp
    simp only [scoreLoop, Except.ok.injEq] at h
    subst h
    exact hacc p (List.mem_reverse.mp hp)
  | cons m ms ih =>
    intro gdfVar acc rs hacc h p hp
    rw [scoreLoop_cons] at h
    rcases hstep : modeStep lookup bb segPts speed dist m gdfVar with e | ⟨t1, gdf1⟩ <;>
      rw [hstep] at h
    · exact Except.noConfusion h
    · replace h : scoreLoop lookup bb segPts speed dist ms gdf1 ((m, t1) :: acc) = .ok rs := h
      refine ih gdf1 ((m, t1) :: acc) rs ?_ h p hp
      intro q hq
      rcases List.mem_cons.mp hq with rfl | hq2
      · exact modeStep_nonneg lookup bb segPts speed dist m gdfVar t1 gdf1 hstep
      · exact hacc q hq2

theorem sum_map_div (l : List (Mode × ℚ)) (t : ℚ) :
    (l.map (fun p => p.2 / t)).sum = (l.map Prod.snd).sum / t := by
  induction l with
  | nil => simp
  | cons x xs ih => simp [ih, add_div]

/-- Claim C4: whenever `classify_transport` returns (raw scores `rs`
from the per-mode loop), the normalized scores sum to exactly 1 — a
fortiori within `1e-9` — as soon as some raw score is nonzero, and if
the raw sum is exactly 0 every returned score is 0 (no NaN: the
normalizer divides by `sum(...) or 1`). -/
theorem c4_normalization (lookup : Lookup) (p0 : ℚ × ℚ) (l : List (ℚ × ℚ))
    (speed dist : ℚ) (rs : List (Mode × ℚ))
    (h : modeScores lookup (p0 :: l) speed dist = .ok rs) :
    classify lookup (p0 :: l) speed dist = .ok ⟨normalize rs, bestMode (normalize rs)⟩
    ∧ ((∃ q ∈ rs, q.2 ≠ 0) → |((normalize rs).map Prod.snd).sum - 1| ≤ 1 / 1000000000)
    ∧ ((rs.map Prod.snd).sum = 0 → ∀ q ∈ normalize rs, q.2 = 0) := by
  have hnn : ∀ p ∈ rs, 0 ≤ p.2 :=
    scoreLoop_nonneg lookup (bboxOf (p0 :: l)) (p0 :: l) speed dist modeList none [] rs
      (by intro p hp; cases hp) h
  have hnnmap : ∀ x ∈ rs.map Prod.snd, (0 : ℚ) ≤ x := by
    intro x hx
    obtain ⟨p, hp, rfl⟩ := List.mem_map.mp hx
    exact hnn p hp
  refine ⟨?_, ?_, ?_⟩
  · simp only [classify, h]
  · rintro ⟨q, hq, hq0⟩
    have hqpos : 0 < q.2 := lt_of_le_of_ne (hnn q hq) (Ne.symm hq0)
    have hle : q.2 ≤ (rs.map Prod.snd).sum :=
      List.single_le_sum hnnmap q.2 (List.mem_map_of_mem Prod.snd hq)
    have hpos : 0 < (rs.map Prod.snd).sum := lt_of_lt_of_le hqpos hle
    have hne : (rs.map Prod.snd).sum ≠ 0 := ne_of_gt hpos
    simp only [normalize, if_neg hne, List.map_map]
    have hcomp : (Prod.snd ∘ fun p : Mode × ℚ => (p.1, p.2 / (rs.map Prod.snd).sum))
        = fun p : Mode × ℚ => p.2 / (rs.map Prod.snd).sum := rfl
    rw [hcomp, sum_map_div, div_self hne]
    norm_num
  · intro hsum q hq
    simp only [normalize, if_pos hsum, List.mem_map] at hq
    obtain ⟨p, hp, rfl⟩ := hq
    have hle : p.2 ≤ (rs.map Prod.snd).sum :=
      List.single_le_sum hnnmap p.2 (List.mem_map_of_mem Prod.snd hp)
    have hz : p.2 = 0 := le_antisymm (hsum ▸ hle) (hnn p hp)
    simp [hz]

/-- Claim C4 witness: the amended statement evaluated at a concrete
one-point segment with an empty network result: the normalized scores
sum to exactly 1. -/
theorem c4_witness :
    classify lookupNil [((0 : ℚ), 0)] 5 1
      = .ok ⟨normalize [(Mode.zuFuss, 2/7), (.fahrrad, 0), (.auto, 1/5), (.bus, 1/5),
                        (.strassenbahn, 0), (.zug, 0)],
             bestMode (normalize [(Mode.zuFuss, 2/7), (.fahrrad, 0), (.auto, 1/5),
                        (.bus, 1/5), (.strassenbahn, 0), (.zug, 0)])⟩
    ∧ ((∃ q ∈ ([(Mode.zuFuss, (2:ℚ)/7), (.fahrrad, 0), (.auto, 1/5), (.bus, 1/5),
          (.strassenbahn, 0), (.zug, 0)] : List (Mode × ℚ)), q.2 ≠ 0) →
        |((normalize [(Mode.zuFuss, 2/7), (.fahrrad, 0), (.auto, 1/5), (.bus, 1/5),
            (.strassenbahn, 0), (.zug, 0)]).map Prod.snd).sum - 1| ≤ 1 / 1000000000)
    ∧ (([(Mode.zuFuss, (2:ℚ)/7), (.fahrrad, 0), (.auto, 1/5), (.bus, 1/5),
          (.strassenbahn, 0), (.zug, 0)].map Prod.snd).sum = 0 →
        ∀ q ∈ normalize [(Mode.zuFuss, 2/7), (.fahrrad, 0), (.auto, 1/5), (.bus, 1/5),
            (.strassenbahn, 0), (.zug, 0)], q.2 = 0) :=
  c4_normalization lookupNil ((0 : ℚ), 0) [] 5 1
    [(Mode.zuFuss, 2/7), (.fahrrad, 0), (.auto, 1/5), (.bus, 1/5),
     (.strassenbahn, 0), (.zug, 0)]
    (by with_unfolding_all rfl)

theorem scoreLoop_keys (lookup : Lookup) (bb : Bbox) (segPts : List (ℚ × ℚ))
    (speed dist : ℚ) (ms : List Mode) :
    ∀ (gdfVar : Option (List Geom)) (acc rs : List (Mode × ℚ)),
      scoreLoop lookup bb segPts speed dist ms gdfVar acc = .ok rs →
      rs.map Prod.fst = acc.reverse.map Prod.fst ++ ms := by
  induction ms with
  | nil =>
    intro gdfVar acc rs h
    simp only [scoreLoop, Except.ok.injEq] at h
    subst h
    simp
  | cons m ms ih =>
    intro gdfVar acc rs h
    rw [scoreLoop_cons] at h
    rcases hstep : modeStep lookup bb segPts speed dist m gdfVar with e | ⟨t1, gdf1⟩ <;>
      rw [hstep] at h
    · exact Except.noConfusion h
    · replace h : scoreLoop lookup bb segPts speed dist ms gdf1 ((m, t1) :: acc) = .ok rs := h
      have hk := ih gdf1 ((m, t1) :: acc) rs h
      simpa using hk

theorem normalize_keys (rs : List (Mode × ℚ)) :
    (normalize rs).map Prod.fst = rs.map Prod.fst := by
  simp [normalize, List.map_map]

/-- Claim C9, counterexample: for the empty segment-point list the code
returns `{"best": None}` (line 243): the mapping has no numeric mode
entries at all and `best` is `None`, so the claim's "for every input"
fails on empty inputs. -/
theorem c9_counterexample :
    classify lookupNil [] 5 1 = .ok ⟨[], none⟩
    ∧ (([] : List (Mode × ℚ)).map Prod.fst ≠ modeList)
    ∧ (ClassifyResult.mk [] none).best = none := by
  refine ⟨rfl, ?_, rfl⟩
  simp [modeList]

/-- Claim C9 (amended): for every non-empty segment-point list on which
the per-mode loop returns (does not raise, see C1), the returned mapping
contains exactly one numeric entry per supported mode, in the fixed mode
order, plus a `best` entry holding some mode. -/
theorem c9_amended (lookup : Lookup) (p0 : ℚ × ℚ) (l : List (ℚ × ℚ))
    (speed dist : ℚ) (rs : List (Mode × ℚ))
    (h : modeScores lookup (p0 :: l) speed dist = .ok rs) :
    classify lookup (p0 :: l) speed dist = .ok ⟨normalize rs, bestMode (normalize rs)⟩
    ∧ (normalize rs).map Prod.fst = modeList
    ∧ (bestMode (normalize rs)).isSome = true := by
  have hkeys : rs.map Prod.fst = modeList := by
    have hk := scoreLoop_keys lookup (bboxOf (p0 :: l)) (p0 :: l) speed dist modeList
      none [] rs h
    simpa using hk
  refine ⟨by simp only [classify, h], ?_, ?_⟩
  · rw [normalize_keys]
    exact hkeys
  · cases rs with
    | nil => simp [modeList] at hkeys
    | cons a as => simp [normalize, bestMode]

/-- Claim C9 witness: the amended statement at a concrete one-point
segment: six mode keys in order plus a chosen best mode. -/
theorem c9_witness :
    classify lookupNil [((0 : ℚ), 0)] 5 2
      = .ok ⟨normalize [(Mode.zuFuss, 2/7), (.fahrrad, 0), (.auto, 1/5), (.bus, 1/5),
                        (.strassenbahn, 0), (.zug, 0)],
             bestMode (normalize [(Mode.zuFuss, 2/7), (.fahrrad, 0), (.auto, 1/5),
                        (.bus, 1/5), (.strassenbahn, 0), (.zug, 0)])⟩
    ∧ (normalize [(Mode.zuFuss, (2:ℚ)/7), (.fahrrad, 0), (.auto, 1/5), (.bus, 1/5),
        (.strassenbahn, 0), (.zug, 0)]).map Prod.fst = modeList
    ∧ (bestMode (normalize [(Mode.zuFuss, (2:ℚ)/7), (.fahrrad, 0), (.auto, 1/5),
        (.bus, 1/5), (.strassenbahn, 0), (.zug, 0)])).isSome = true :=
  c9_amended lookupNil ((0 : ℚ), 0) [] 5 2
    [(Mode.zuFuss, 2/7), (.fahrrad, 0), (.auto, 1/5), (.bus, 1/5),
     (.strassenbahn, 0), (.zug, 0)]
    (by with_unfolding_all rfl)

/-! Claims C8 and C3: structure of the merge passes. -/

theorem mergeGo_head (c : E → E → Bool) :
    ∀ (ys : List E) (x : E), ∃ e0 t, mergeGo c x ys = {x with e := e0} :: t := by
  intro ys
  induction ys with
  | nil => intro x; exact ⟨x.e, [], rfl⟩
  | cons y ys ih =>
    intro x
    by_cases hc : c x y
    · obtain ⟨e0, t, ht⟩ := ih {x with e := y.e}
      refine ⟨e0, t, ?_⟩
      simp only [mergeGo, if_pos hc]
      exact ht
    · exact ⟨x.e, mergeGo c y ys, by simp only [mergeGo, if_neg hc]⟩

theorem mergeGo_last_e (c : E → E → Bool) :
    ∀ (ys : List E) (x : E),
      (mergeGo c x ys).getLast?.map E.e = ((x :: ys).getLast?).map E.e := by
  intro ys
  induction ys with
  | nil => intro x; rfl
  | cons y ys ih =>
    intro x
    by_cases hc : c x y
    · simp only [mergeGo, if_pos hc]
      rw [ih {x with e := y.e}]
      cases ys with
      | nil => rfl
      | cons z zs =>
        rw [List.getLast?_cons_cons, List.getLast?_cons_cons, List.getLast?_cons_cons]
    · simp only [mergeGo, if_neg hc]
      obtain ⟨e0, t, ht⟩ := mergeGo_head c ys y
      rw [ht, List.getLast?_cons_cons, ← ht, ih y, List.getLast?_cons_cons]

theorem mergeGo_chain_not (c : E → E → Bool)
    (hc : ∀ x y e0, c x {y with e := e0} = c x y) :
    ∀ (ys : List E) (x : E),
      List.Chain' (fun a b => c a b = false) (mergeGo c x ys) := by
  intro ys
  induction ys with
  | nil => intro x; simp [mergeGo]
  | cons y ys ih =>
    intro x
    by_cases hcc : c x y
    · simp only [mergeGo, if_pos hcc]
      exact ih {x with e := y.e}
    · have hcc2 : c x y = false := by simpa using hcc
      simp only [mergeGo, if_neg hcc]
      obtain ⟨e0, t, ht⟩ := mergeGo_head c ys y
      rw [ht]
      refine List.chain'_cons.mpr ⟨?_, ht ▸ ih y⟩
      rw [hc x y e0]
      exact hcc2

theorem mergeGo_fix (c : E → E → Bool) :
    ∀ (ys : List E) (x : E),
      List.Chain' (fun a b => c a b = false) (x :: ys) →
      mergeGo c x ys = x :: ys := by
  intro ys
  induction ys with
  | nil => intro x _; rfl
  | cons y ys ih =>
    intro x hch
    obtain ⟨hxy, hch2⟩ := List.chain'_cons.mp hch
    simp only [mergeGo, if_neg (by simp [hxy] : ¬ (c x y = true))]
    rw [ih y hch2]

theorem mergeGo_chain_preserve (c : E → E → Bool) (R : E → E → Prop)
    (h1 : ∀ (x y : E) (e0 : ℤ), R x {y with e := e0} ↔ R x y)
    (h2 : ∀ x y z : E, R y z → R {x with e := y.e} z) :
    ∀ (ys : List E) (x : E),
      List.Chain' R (x :: ys) → List.Chain' R (mergeGo c x ys) := by
  intro ys
  induction ys with
  | nil => intro x _; simp [mergeGo]
  | cons y ys ih =>
    intro x hch
    obtain ⟨hxy, hch2⟩ := List.chain'_cons.mp hch
    by_cases hcc : c x y
    · simp only [mergeGo, if_pos hcc]
      apply ih {x with e := y.e}
      cases ys with
      | nil => simp
      | cons z zs =>
        obtain ⟨hyz, hch3⟩ := List.chain'_cons.mp hch2
        exact List.chain'_cons.mpr ⟨h2 x y z hyz, hch3⟩
    · simp only [mergeGo, if_neg hcc]
      obtain ⟨e0, t, ht⟩ := mergeGo_head c ys y
      rw [ht]
      refine List.chain'_cons.mpr ⟨(h1 x y e0).mpr hxy, ?_⟩
      rw [← ht]
      exact ih y hch2

theorem greedyMerge_cons (c : E → E → Bool) (x : E) (xs : List E) :
    greedyMerge c (x :: xs) = mergeGo c x xs := rfl

theorem mergeGo_head_view (c : E → E → Bool) (x : E) (ys : List E) :
    (mergeGo c x ys).head?.map (fun z => (z.lat, z.lon, z.s)) = some (x.lat, x.lon, x.s) := by
  obtain ⟨e0, t, ht⟩ := mergeGo_head c ys x
  rw [ht]
  rfl

theorem greedyMerge_chain_not (c : E → E → Bool)
    (hc : ∀ x y e0, c x {y with e := e0} = c x y) (l : List E) :
    List.Chain' (fun a b => c a b = false) (greedyMerge c l) := by
  cases l with
  | nil => simp [greedyMerge]
  | cons x xs => exact mergeGo_chain_not c hc xs x

theorem greedyMerge_fix (c : E → E → Bool) (l : List E)
    (h : List.Chain' (fun a b => c a b = false) l) :
    greedyMerge c l = l := by
  cases l with
  | nil => rfl
  | cons x xs => exact mergeGo_fix c xs x h

theorem greedyMerge_preserve (c : E → E → Bool) (R : E → E → Prop)
    (h1 : ∀ (x y : E) (e0 : ℤ), R x {y with e := e0} ↔ R x y)
    (h2 : ∀ x y z : E, R y z → R {x with e := y.e} z)
    (l : List E) (h : List.Chain' R l) :
    List.Chain' R (greedyMerge c l) := by
  cases l with
  | nil => simp [greedyMerge]
  | cons x xs => exact mergeGo_chain_preserve c R h1 h2 xs x h

theorem greedyMerge_last_e (c : E → E → Bool) (l : List E) :
    (greedyMerge c l).getLast?.map E.e = l.getLast?.map E.e := by
  cases l with
  | nil => rfl
  | cons x xs => exact mergeGo_last_e c xs x

theorem enrich_chain2 (g : GeoFn) (l : List E)
    (h : List.Chain' (fun a b => cond2 a b = false) l) :
    List.Chain' (fun a b => cond2 a b = false) (enrich g l) := by
  rw [enrich, List.chain'_map]
  exact h

theorem enrich_last_e (g : GeoFn) (l : List E) :
    (enrich g l).getLast?.map E.e = l.getLast?.map E.e := by
  induction l with
  | nil => rfl
  | cons x xs ih =>
    cases xs with
    | nil => rfl
    | cons y ys =>
      simp only [enrich, List.map_cons] at ih ⊢
      rw [List.getLast?_cons_cons, List.getLast?_cons_cons]
      exact ih

/-- Claim C8: the merge pipeline is idempotent.  For any stay-point list
(and any distance function and geocoder), re-running the minute-overlap
pass and then the address/gap pass on the pipeline's own output (with
its coordinates, times and addresses kept) returns it unchanged: both
passes leave left-to-right neighbours only where their merge condition
failed with the final field values, so no further merges occur. -/
theorem c8_idempotent (dM : Dist) (g : GeoFn) (l : List E) :
    mergePass4 dM (mergePass2 (mergedStops dM g l)) = mergedStops dM g l := by
  have h1two : ∀ (x y : E) (e0 : ℤ),
      (cond2 x {y with e := e0} = false) ↔ (cond2 x y = false) := by
    intro x y e0
    rfl
  have h2two : ∀ x y z : E, cond2 y z = false → cond2 {x with e := y.e} z = false := by
    intro x y z h
    exact h
  have hch2 : List.Chain' (fun a b => cond2 a b = false) (mergePass2 l) :=
    greedyMerge_chain_not cond2 (fun _ _ _ => rfl) l
  have hch2e : List.Chain' (fun a b => cond2 a b = false) (enrich g (mergePass2 l)) :=
    enrich_chain2 g _ hch2
  have hch2z : List.Chain' (fun a b => cond2 a b = false) (mergedStops dM g l) :=
    greedyMerge_preserve (cond4 dM) _ h1two h2two _ hch2e
  have hch4 : List.Chain' (fun a b => cond4 dM a b = false) (mergedStops dM g l) :=
    greedyMerge_chain_not (cond4 dM) (fun _ _ _ => rfl) _
  rw [show mergePass2 (mergedStops dM g l) = mergedStops dM g l from
    greedyMerge_fix cond2 _ hch2z]
  exact greedyMerge_fix (cond4 dM) _ hch4

/-- Claim C3, counterexample: for the two-point trace `ptsEx` (200 s
within 50 m) the cluster and both synthetic endpoints merge into a
single stop that keeps the first entry's coordinates `(0, 0)` — the
returned last stop's coordinates differ from the trace's last point
`(0.0001, 0)`. -/
theorem c3_counterexample :
    (stopsOf dEx g0 ptsEx).getLast?.map (fun z => (z.lat, z.lon)) = some ((0 : ℚ), 0)
    ∧ (sortPts ptsEx).getLast?.map (fun p => (p.lat, p.lon)) = some ((1/10000 : ℚ), 0)
    ∧ (((0 : ℚ), (0 : ℚ)) ≠ ((1/10000 : ℚ), 0)) := by
  refine ⟨by with_unfolding_all rfl, by with_unfolding_all rfl, ?_⟩
  simp only [ne_eq, Prod.mk.injEq, not_and]
  intro hc
  norm_num at hc

/-- Claim C3 (amended): for every non-empty trace the first returned
stop keeps the (time-sorted) first point's coordinates and start time —
the merge passes always merge into the leading entry — and the last
returned stop's end time equals the last point's timestamp; the last
stop's coordinates, however, need not equal the last trace point when
the merges fold the trailing synthetic endpoint into a preceding stop
(see the counterexample). -/
theorem c3_amended (dM : Dist) (g : GeoFn) (pts : List Pt) (q : Pt) (qs : List Pt)
    (h : sortPts pts = q :: qs) :
    (stopsOf dM g pts).head?.map (fun z => (z.lat, z.lon, z.s)) = some (q.lat, q.lon, q.t)
    ∧ (stopsOf dM g pts).getLast?.map E.e = some ((q :: qs).getLastD q).t := by
  have hstops : stopsOf dM g pts = mergedStops dM g (mkCoords dM q qs) := by
    unfold stopsOf
    rw [h]
  constructor
  · rw [hstops]
    unfold mergedStops mkCoords mergePass2 mergePass4
    rw [greedyMerge_cons]
    obtain ⟨e0, t0, h0⟩ := mergeGo_head cond2
      (clustersE dM 50 180 (q :: qs) ++ [synthE ((q :: qs).getLastD q)]) (synthE q)
    rw [h0]
    simp only [enrich, List.map_cons]
    rw [greedyMerge_cons, mergeGo_head_view]
    simp [synthE]
  · rw [hstops]
    unfold mergedStops mergePass4 mergePass2
    rw [greedyMerge_last_e, enrich_last_e, greedyMerge_last_e]
    unfold mkCoords
    rw [show synthE q :: (clustersE dM 50 180 (q :: qs) ++ [synthE ((q :: qs).getLastD q)])
          = (synthE q :: clustersE dM 50 180 (q :: qs)) ++ [synthE ((q :: qs).getLastD q)]
        from rfl]
    rw [List.getLast?_concat]
    simp [synthE]

/-- Claim C3 witness: the amended statement evaluated on a one-point
trace: the single returned stop carries that point's coordinates, start
and end. -/
theorem c3_witness :
    (stopsOf dM0 g0 [pt0]).head?.map (fun z => (z.lat, z.lon, z.s)) = some (0, 0, 0)
    ∧ (stopsOf dM0 g0 [pt0]).getLast?.map E.e = some 0 := by
  have h := c3_amended dM0 g0 [pt0] pt0 [] (by with_unfolding_all rfl)
  simpa [pt0] using h

end WegeRadar
